import Mathlib

/-!
Verification development for the `claude-code-sync` CLI.

The definitions below are a shallow embedding of the hook-handling code:
the transcript scanner (`parseTranscriptFile`), the cost estimator
(`calculateCost` with `MODEL_PRICING`), the session-state ledger
(`loadSessionState` / `saveSessionState`), and the state effects of the
`Stop` and `SessionEnd` cases of the `hook` subcommand.

Modelling conventions:
* JavaScript numbers that hold token counts are modelled as `Nat`;
  dollar amounts are modelled as `ℚ` (the source arithmetic on them is
  exact decimal products and one division by 1,000,000).
* Optional JS fields become `Option`; JS truthiness of an optional string
  (`undefined` and `""` are falsy) is `strTruthy`.
* `Date.parse` / `getTime` is an explicit parameter
  `getTime : String → Option Int` (`none` models `NaN`); the ISO string
  `new Date().toISOString()` fallback is an explicit `now` parameter.
* A JSONL transcript is a list of lines, each either blank, malformed
  (not JSON-parsable) or a parsed entry.
* A JS `Set` of strings is an insertion-ordered duplicate-free list;
  `Set.add` is `insertUuid`, `new Set(array)` is `jsDedup`.
* A JS object used as a map (the session ledger) is an insertion-ordered
  association list; key update keeps the key's position, `delete` removes
  the key.
-/

namespace ClaudeCodeSync

/-- JS truthiness of an optional string: `undefined` and `""` are falsy. -/
def strTruthy : Option String → Bool
  | none => false
  | some s => s != ""

/-- JS truthiness of an optional number: `undefined` and `0` are falsy. -/
def intTruthy : Option Int → Bool
  | none => false
  | some n => n != 0

/-- JS `a || b` for an optional string `a` with string default `b`. -/
def jsOrStr (a : Option String) (b : String) : String :=
  match a with
  | some s => if s = "" then b else s
  | none => b

/-- JS `Set.add`: append the element if it is not already present. -/
def insertUuid (seen : List String) (u : String) : List String :=
  if u ∈ seen then seen else seen ++ [u]

/-- JS `new Set(array)`: keep the first occurrence of each element. -/
def jsDedup (l : List String) : List String :=
  l.foldl insertUuid []

/-- JS `hay.includes(needle)`: substring test. -/
def strIncludes (hay needle : String) : Bool :=
  (List.range (hay.length + 1)).any fun i => needle.toList.isPrefixOf (hay.toList.drop i)

/-! ## Transcript data model (interfaces `TranscriptUsage`, `TranscriptContentPart`,
`TranscriptMessage`, `TranscriptEntry` of the CLI source) -/

structure TranscriptUsage where
  input_tokens : Option Nat
  output_tokens : Option Nat
  cache_read_input_tokens : Option Nat
  cache_creation_input_tokens : Option Nat
deriving DecidableEq

structure TranscriptContentPart where
  type : String
  text : Option String
deriving DecidableEq

structure TranscriptMessage where
  content : Option (List TranscriptContentPart)
  usage : Option TranscriptUsage
  model : Option String
deriving DecidableEq

structure TranscriptEntry where
  type : Option String
  uuid : Option String
  timestamp : Option String
  message : Option TranscriptMessage
  cwd : Option String
  slug : Option String
deriving DecidableEq

/-- One line of the JSONL transcript: blank, not JSON-parsable, or a parsed entry. -/
inductive TranscriptLine where
  | blank
  | malformed
  | entry (e : TranscriptEntry)
deriving DecidableEq

/-- Interface `TranscriptStats` of the CLI source. -/
structure TranscriptStats where
  model : Option String
  inputTokens : Nat
  cacheCreationTokens : Nat
  cacheReadTokens : Nat
  outputTokens : Nat
  messageCount : Nat
  toolCallCount : Nat
  title : Option String
  cwd : Option String
  startedAt : Option String
  endedAt : Option String
  durationMs : Option Int
deriving DecidableEq

/-- One element of `ParsedTranscript.assistantMessages`. -/
structure AssistantMessage where
  uuid : String
  text : String
  timestamp : String
  model : Option String
deriving DecidableEq

structure ParsedTranscript where
  assistantMessages : List AssistantMessage
  stats : TranscriptStats
deriving DecidableEq

/-- The all-zero / all-undefined initial `result.stats` of `parseTranscriptFile`. -/
def initStats : TranscriptStats :=
  { model := none, inputTokens := 0, cacheCreationTokens := 0, cacheReadTokens := 0,
    outputTokens := 0, messageCount := 0, toolCallCount := 0, title := none, cwd := none,
    startedAt := none, endedAt := none, durationMs := none }

/-- Loop state of the scan in `parseTranscriptFile`: the result being built,
the `seenUuids` set, and the `firstTimestamp` / `lastTimestamp` locals. -/
structure ScanState where
  messages : List AssistantMessage
  stats : TranscriptStats
  seenUuids : List String
  firstTimestamp : Option String
  lastTimestamp : Option String
deriving DecidableEq

def initScanState : ScanState :=
  { messages := [], stats := initStats, seenUuids := [], firstTimestamp := none,
    lastTimestamp := none }

/-- The text parts pushed onto `result.assistantMessages` for one assistant entry:
parts with `type === "text"` and truthy `text`.  `now` is the
`new Date().toISOString()` fallback for a missing entry timestamp. -/
def extractTexts (now : String) (e : TranscriptEntry) : List AssistantMessage :=
  match e.message with
  | none => []
  | some m =>
    match m.content with
    | none => []
    | some parts =>
      parts.filterMap fun p =>
        if p.type = "text" ∧ strTruthy p.text then
          some { uuid := e.uuid.getD "", text := p.text.getD "",
                 timestamp := jsOrStr e.timestamp now, model := m.model }
        else none

/-- Number of `tool_use` content parts of one assistant entry. -/
def countToolUses (e : TranscriptEntry) : Nat :=
  match e.message with
  | none => 0
  | some m =>
    match m.content with
    | none => 0
    | some parts => (parts.filter fun p => p.type == "tool_use").length

/-- Token accumulation of one assistant entry (`if (msg.usage) { ... }`):
each counter grows by the corresponding usage field, `undefined` read as 0. -/
def addUsage (s : TranscriptStats) (msg : TranscriptMessage) : TranscriptStats :=
  match msg.usage with
  | none => s
  | some u =>
    { s with
      inputTokens := s.inputTokens + u.input_tokens.getD 0,
      cacheCreationTokens := s.cacheCreationTokens + u.cache_creation_input_tokens.getD 0,
      cacheReadTokens := s.cacheReadTokens + u.cache_read_input_tokens.getD 0,
      outputTokens := s.outputTokens + u.output_tokens.getD 0 }

def addToolCalls (s : TranscriptStats) (n : Nat) : TranscriptStats :=
  { s with toolCallCount := s.toolCallCount + n }

/-- The part of the per-entry loop body that runs before the duplicate-uuid
check: timestamp tracking, first-wins `cwd` / `title` (from `slug`), the
user-message count, and the first-wins model taken from an assistant entry.
Each conditional update reads only fields it does not write, so the
sequential source updates are expressed as one simultaneous record update. -/
def preEntry (e : TranscriptEntry) (st : ScanState) : ScanState :=
  { st with
    firstTimestamp :=
      if strTruthy e.timestamp then
        (if strTruthy st.firstTimestamp then st.firstTimestamp else e.timestamp)
      else st.firstTimestamp,
    lastTimestamp := if strTruthy e.timestamp then e.timestamp else st.lastTimestamp,
    stats := { st.stats with
      cwd := if ¬ strTruthy st.stats.cwd ∧ strTruthy e.cwd then e.cwd else st.stats.cwd,
      title := if ¬ strTruthy st.stats.title ∧ strTruthy e.slug then e.slug else st.stats.title,
      messageCount :=
        if e.type = some "user" then st.stats.messageCount + 1 else st.stats.messageCount,
      model :=
        match e.message with
        | some msg =>
          if e.type = some "assistant" ∧ strTruthy msg.model ∧ ¬ strTruthy st.stats.model then
            msg.model
          else st.stats.model
        | none => st.stats.model } }

/-- Processing of one parsed transcript entry (`parseTranscriptFile` loop body).
For an assistant entry with a message, an entry whose nonempty uuid was seen
before is skipped entirely (`continue`); otherwise the uuid is recorded, the
text parts and tool-use count are extracted, and usage tokens accumulate. -/
def scanEntry (now : String) (st : ScanState) (e : TranscriptEntry) : ScanState :=
  let st1 := preEntry e st
  match e.message with
  | none => st1
  | some msg =>
    if e.type = some "assistant" then
      let u := e.uuid.getD ""
      if u ≠ "" ∧ u ∈ st1.seenUuids then st1
      else
        { st1 with
          seenUuids := if u = "" then st1.seenUuids else insertUuid st1.seenUuids u,
          messages := st1.messages ++ extractTexts now e,
          stats := addUsage (addToolCalls st1.stats (countToolUses e)) msg }
    else st1

/-- One line of the scan: blank and malformed lines are skipped. -/
def scanLine (now : String) (st : ScanState) : TranscriptLine → ScanState
  | .blank => st
  | .malformed => st
  | .entry e => scanEntry now st e

def scanLines (now : String) (st : ScanState) (ls : List TranscriptLine) : ScanState :=
  ls.foldl (scanLine now) st

/-- The post-loop duration computation of `parseTranscriptFile`: when both
timestamps were seen, they become `startedAt` / `endedAt` and the duration is
their `getTime` difference when neither parse is `NaN`. -/
def finalizeScan (getTime : String → Option Int) (st : ScanState) : ParsedTranscript :=
  match st.firstTimestamp, st.lastTimestamp with
  | some f, some l =>
    if f ≠ "" ∧ l ≠ "" then
      { assistantMessages := st.messages,
        stats := { st.stats with
          startedAt := some f,
          endedAt := some l,
          durationMs :=
            match getTime f, getTime l with
            | some a, some b => some (b - a)
            | _, _ => st.stats.durationMs } }
    else { assistantMessages := st.messages, stats := st.stats }
  | _, _ => { assistantMessages := st.messages, stats := st.stats }

/-- `parseTranscriptFile` on the lines of an existing transcript file. -/
def parseTranscriptLines (getTime : String → Option Int) (now : String)
    (ls : List TranscriptLine) : ParsedTranscript :=
  finalizeScan getTime (scanLines now initScanState ls)

/-- `parseTranscriptFile`: a missing file (`none`) yields the initial result
without scanning. -/
def parseTranscriptFile (getTime : String → Option Int) (now : String)
    (file : Option (List TranscriptLine)) : ParsedTranscript :=
  match file with
  | none => { assistantMessages := [], stats := initStats }
  | some ls => parseTranscriptLines getTime now ls

def isMalformed : TranscriptLine → Bool
  | .malformed => true
  | _ => false

/-- A transcript with its non-JSON-parsable lines removed. -/
def removeMalformed (ls : List TranscriptLine) : List TranscriptLine :=
  ls.filter fun l => !isMalformed l

/-! Specification-side view of the scanner, used to state what the token
counters and the extracted messages sum over. -/

/-- The well-formed assistant entries of a transcript: parsed lines with
`type === "assistant"` and a `message` object, in transcript order. -/
def assistantEntries (ls : List TranscriptLine) : List TranscriptEntry :=
  ls.filterMap fun l =>
    match l with
    | .entry e =>
      match e.message with
      | some _ => if e.type = some "assistant" then some e else none
      | none => none
    | _ => none

/-- First-occurrence filter keyed by uuid: an entry whose nonempty uuid
already occurred on an earlier kept entry is dropped; entries with an empty
uuid are always kept and never mark a uuid as seen. -/
def keepFirstByUuid (seen : List String) : List TranscriptEntry → List TranscriptEntry
  | [] => []
  | e :: rest =>
    if e.uuid.getD "" ≠ "" ∧ e.uuid.getD "" ∈ seen then keepFirstByUuid seen rest
    else
      e :: keepFirstByUuid
        (if e.uuid.getD "" = "" then seen else insertUuid seen (e.uuid.getD "")) rest

def msgTokIn (msg : TranscriptMessage) : Nat :=
  match msg.usage with
  | some u => u.input_tokens.getD 0
  | none => 0

def msgTokCacheW (msg : TranscriptMessage) : Nat :=
  match msg.usage with
  | some u => u.cache_creation_input_tokens.getD 0
  | none => 0

def msgTokCacheR (msg : TranscriptMessage) : Nat :=
  match msg.usage with
  | some u => u.cache_read_input_tokens.getD 0
  | none => 0

def msgTokOut (msg : TranscriptMessage) : Nat :=
  match msg.usage with
  | some u => u.output_tokens.getD 0
  | none => 0

/-- Input tokens reported by one entry's usage block (0 when absent). -/
def tokIn (e : TranscriptEntry) : Nat :=
  match e.message with
  | some msg => msgTokIn msg
  | none => 0

def tokCacheW (e : TranscriptEntry) : Nat :=
  match e.message with
  | some msg => msgTokCacheW msg
  | none => 0

def tokCacheR (e : TranscriptEntry) : Nat :=
  match e.message with
  | some msg => msgTokCacheR msg
  | none => 0

def tokOut (e : TranscriptEntry) : Nat :=
  match e.message with
  | some msg => msgTokOut msg
  | none => 0

/-! ## Cost estimator (`MODEL_PRICING` and `calculateCost` of the CLI source) -/

/-- Per-million-token USD rates for one model. -/
structure Pricing where
  input : ℚ
  output : ℚ
  cacheWrite : ℚ
  cacheRead : ℚ
deriving DecidableEq

/-- The static price table, in source order. -/
def MODEL_PRICING : List (String × Pricing) :=
  [("claude-sonnet-4-20250514", ⟨3, 15, 3.75, 0.30⟩),
   ("claude-opus-4-20250514", ⟨15, 75, 18.75, 1.50⟩),
   ("claude-opus-4-5-20251101", ⟨15, 75, 18.75, 1.50⟩),
   ("claude-3-5-sonnet-20241022", ⟨3, 15, 3.75, 0.30⟩),
   ("claude-3-opus-20240229", ⟨15, 75, 18.75, 1.50⟩),
   ("claude-3-5-haiku-20241022", ⟨0.80, 4, 1.00, 0.08⟩)]

/-- Exact-key lookup `MODEL_PRICING[model]`. -/
def lookupPrice : List (String × Pricing) → String → Option Pricing
  | [], _ => none
  | (k, p) :: rest, m => if k = m then some p else lookupPrice rest m

/-- The pricing `calculateCost` resolves for a model name: exact match first,
then the first key related to the model by substring in either direction. -/
def findPricing (m : String) : Option Pricing :=
  match lookupPrice MODEL_PRICING m with
  | some p => some p
  | none =>
    match MODEL_PRICING.find? (fun kv => strIncludes m kv.1 || strIncludes kv.1 m) with
    | some kv => some kv.2
    | none => none

/-- `calculateCost(model, stats)`: 0 for a falsy model or a failed lookup,
otherwise the four token categories priced per million tokens. -/
def calculateCost (model : Option String) (stats : TranscriptStats) : ℚ :=
  match model with
  | none => 0
  | some m =>
    if m = "" then 0
    else
      match findPricing m with
      | none => 0
      | some p =>
        ((stats.inputTokens : ℚ) * p.input + (stats.cacheCreationTokens : ℚ) * p.cacheWrite
          + (stats.cacheReadTokens : ℚ) * p.cacheRead + (stats.outputTokens : ℚ) * p.output)
          / 1000000

/-! ## Session-state ledger (interface `SessionState`, `loadSessionState`,
`saveSessionState` of the CLI source) -/

/-- The `syncedMessageUuids` field is a JS `Set` in memory and a plain array
in the serialized file (`Set<string> | string[]` in the source). -/
inductive UuidStore where
  | set (l : List String)
  | arr (l : List String)
deriving DecidableEq

structure TokenUsage where
  input : Nat
  output : Nat
deriving DecidableEq

/-- One session's ledger entry (the value type of interface `SessionState`). -/
structure SessionEntry where
  model : Option String
  firstPrompt : Option String
  tokenUsage : Option TokenUsage
  cacheCreationTokens : Option Nat
  cacheReadTokens : Option Nat
  messageCount : Option Nat
  toolCallCount : Option Nat
  syncedMessageUuids : Option UuidStore
  startedAt : Option String
  endedAt : Option String
  durationMs : Option Int
  title : Option String
  cwd : Option String
  costEstimate : Option ℚ
deriving DecidableEq

/-- The fresh `{}` entry. -/
def emptyEntry : SessionEntry :=
  { model := none, firstPrompt := none, tokenUsage := none, cacheCreationTokens := none,
    cacheReadTokens := none, messageCount := none, toolCallCount := none,
    syncedMessageUuids := none, startedAt := none, endedAt := none, durationMs := none,
    title := none, cwd := none, costEstimate := none }

/-- The ledger: a JS object keyed by session id, as an insertion-ordered
association list with unique keys. -/
abbrev SessionState := List (String × SessionEntry)

def lookupSession : SessionState → String → Option SessionEntry
  | [], _ => none
  | (k, v) :: rest, sid => if k = sid then some v else lookupSession rest sid

/-- JS `delete state[sid]`. -/
def eraseSession : SessionState → String → SessionState
  | [], _ => []
  | (k, v) :: rest, sid =>
    if k = sid then eraseSession rest sid else (k, v) :: eraseSession rest sid

/-- JS `state[sid] = e`: overwrite in place, or append a new key. -/
def setSession : SessionState → String → SessionEntry → SessionState
  | [], sid, e => [(sid, e)]
  | (k, v) :: rest, sid, e =>
    if k = sid then (k, e) :: rest else (k, v) :: setSession rest sid e

/-- Per-entry serialization in `saveSessionState`: `Array.from` of a `Set`,
anything else kept as is. -/
def saveEntry (e : SessionEntry) : SessionEntry :=
  { e with syncedMessageUuids :=
      match e.syncedMessageUuids with
      | some (.set l) => some (.arr l)
      | x => x }

/-- `saveSessionState`: serialize every session's entry. -/
def saveSessionState (st : SessionState) : SessionState :=
  st.map fun p => (p.1, saveEntry p.2)

/-- Per-entry deserialization in `loadSessionState`: an array becomes
`new Set(array)`, anything else is kept as is. -/
def loadEntry (e : SessionEntry) : SessionEntry :=
  { e with syncedMessageUuids :=
      match e.syncedMessageUuids with
      | some (.arr l) => some (.set (jsDedup l))
      | x => x }

/-- `loadSessionState`: deserialize every session's entry. -/
def loadSessionState (st : SessionState) : SessionState :=
  st.map fun p => (p.1, loadEntry p.2)

/-- The `syncedMessages` set the Stop handler builds from an entry:
a stored `Set` is used as is, a stored array becomes `new Set(array)`,
a missing field becomes `new Set([])`. -/
def syncedSetOfEntry (e : SessionEntry) : List String :=
  match e.syncedMessageUuids with
  | some (.set l) => l
  | some (.arr l) => jsDedup l
  | none => []

/-- The synced-message-identifier set recorded for `sid` in a ledger. -/
def syncedUuidsOf (st : SessionState) (sid : String) : List String :=
  syncedSetOfEntry ((lookupSession st sid).getD emptyEntry)

/-! ## The `hook` subcommand -/

/-- Interface `Config` of `index.ts` (optional booleans may be absent). -/
structure Config where
  convexUrl : String
  apiKey : String
  autoSync : Option Bool
  syncToolCalls : Option Bool
  syncThinking : Option Bool
deriving DecidableEq

/-- JS `!input.trim()`: the stdin payload is empty or all whitespace. -/
def isBlankInput (input : String) : Bool :=
  input.toList.all Char.isWhitespace

/-- The early exits of the `hook` command: no config, `autoSync === false`,
or whitespace-only stdin each make the process exit before any handler runs. -/
def hookGuard (cfg : Option Config) (input : String) : Bool :=
  match cfg with
  | none => false
  | some c =>
    if c.autoSync = some false then false
    else if isBlankInput input then false
    else true

/-- Hook payload for the `Stop` event (interface `HookStopData`). -/
structure HookStopData where
  session_id : String
  transcript_path : Option String
deriving DecidableEq

/-- Hook payload for the `SessionEnd` event (interface `HookSessionEndData`);
only the fields the ledger-state claims mention are carried. -/
structure HookSessionEndData where
  session_id : String
  transcript_path : Option String
  cwd : Option String
  reason : Option String
deriving DecidableEq

/-- The stats-reconciliation block at the top of the Stop case: conditional
first-wins / overwrite updates of the ledger entry from the freshly parsed
transcript stats.  Each conditional reads only fields it does not write, so
the sequential source assignments are one simultaneous record update.
`syncedMessageUuids`, `messageCount` and `firstPrompt` are untouched. -/
def stopUpdateStats (stats : TranscriptStats) (state : SessionEntry) : SessionEntry :=
  { state with
    tokenUsage :=
      if stats.inputTokens > 0 ∨ stats.outputTokens > 0 ∨ stats.cacheReadTokens > 0 then
        some ⟨stats.inputTokens + stats.cacheCreationTokens + stats.cacheReadTokens,
              stats.outputTokens⟩
      else state.tokenUsage,
    cacheCreationTokens :=
      if stats.inputTokens > 0 ∨ stats.outputTokens > 0 ∨ stats.cacheReadTokens > 0 then
        some stats.cacheCreationTokens
      else state.cacheCreationTokens,
    cacheReadTokens :=
      if stats.inputTokens > 0 ∨ stats.outputTokens > 0 ∨ stats.cacheReadTokens > 0 then
        some stats.cacheReadTokens
      else state.cacheReadTokens,
    model :=
      if strTruthy stats.model ∧ ¬ strTruthy state.model then stats.model else state.model,
    title :=
      if strTruthy stats.title ∧ ¬ strTruthy state.title then stats.title else state.title,
    startedAt := if strTruthy stats.startedAt then stats.startedAt else state.startedAt,
    endedAt := if strTruthy stats.endedAt then stats.endedAt else state.endedAt,
    durationMs := if intTruthy stats.durationMs then stats.durationMs else state.durationMs,
    toolCallCount :=
      if stats.toolCallCount > 0 then some stats.toolCallCount else state.toolCallCount,
    costEstimate :=
      if strTruthy stats.model ∧
          (stats.inputTokens ≠ 0 ∨ stats.outputTokens ≠ 0 ∨ stats.cacheReadTokens ≠ 0) then
        some (calculateCost stats.model stats)
      else state.costEstimate }

/-- The message-forwarding loop of the Stop case.  A message whose nonempty
uuid is already in `synced` is skipped; otherwise a nonempty uuid is added to
`synced`, the entry's `messageCount` is bumped, and the message is
transmitted.  Returns the final set, the final count, and the transmitted
messages in order. -/
def emitLoop (synced : List String) (mc : Option Nat) :
    List AssistantMessage → List String × Option Nat × List AssistantMessage
  | [] => (synced, mc, [])
  | m :: rest =>
    if m.uuid ≠ "" ∧ m.uuid ∈ synced then emitLoop synced mc rest
    else
      let r := emitLoop (if m.uuid = "" then synced else insertUuid synced m.uuid)
        (some (mc.getD 0 + 1)) rest
      (r.fst, r.snd.fst, m :: r.snd.snd)

/-- Wire record for one transmitted assistant message (interface
`MessageData`, assistant role): `messageId` is the transcript uuid, or a
`Date.now()`-based fallback (`nowMs`) when the uuid is empty. -/
structure MessageData where
  sessionId : String
  messageId : String
  role : String
  content : Option String
  model : Option String
  timestamp : Option String
deriving DecidableEq

def messageDataOf (sid nowMs : String) (m : AssistantMessage) : MessageData :=
  { sessionId := sid,
    messageId := if m.uuid = "" then sid ++ "-assistant-" ++ nowMs else m.uuid,
    role := "assistant", content := some m.text, model := m.model,
    timestamp := some m.timestamp }

/-- State effect of the `Stop` case of the `hook` command on an already
loaded ledger `st`: when `transcript_path` is truthy, parse the transcript
(`file` is its content, `none` when the file does not exist), update the
entry's stats, forward the not-yet-synced assistant messages, and store the
enlarged uuid set; in every case write the entry back.  Returns the updated
ledger (which the source then persists with `saveSessionState`) and the list
of transcript messages transmitted via `syncMessage`. -/
def handleStop (data : HookStopData) (file : Option (List TranscriptLine))
    (getTime : String → Option Int) (now : String) (st : SessionState) :
    SessionState × List AssistantMessage :=
  let state0 := (lookupSession st data.session_id).getD emptyEntry
  if strTruthy data.transcript_path then
    let transcript := parseTranscriptFile getTime now file
    let state1 := stopUpdateStats transcript.stats state0
    let r := emitLoop (syncedSetOfEntry state1) state1.messageCount transcript.assistantMessages
    let state2 := { state1 with
      messageCount := r.snd.fst,
      syncedMessageUuids := some (.set r.fst) }
    (setSession st data.session_id state2, r.snd.snd)
  else
    (setSession st data.session_id state0, [])

/-- One full `hook Stop` process invocation over the on-disk ledger `disk`:
load the ledger, run the Stop case, persist the result. -/
def stopInvocation (data : HookStopData) (file : Option (List TranscriptLine))
    (getTime : String → Option Int) (now : String) (disk : SessionState) :
    SessionState × List AssistantMessage :=
  let r := handleStop data file getTime now (loadSessionState disk)
  (saveSessionState r.1, r.2)

/-- State effect of the `SessionEnd` case on the loaded ledger: the entry for
the event's session id is deleted (`delete sessionState[data.session_id]`);
nothing else in the case body writes to the ledger (the stats it computes
feed only the transmitted session record). -/
def sessionEndStateToSave (sid : String) (loaded : SessionState) : SessionState :=
  eraseSession loaded sid

/-- One full `hook SessionEnd` process invocation over the on-disk ledger:
after the guard checks, load the ledger, delete the session's entry, persist.
A failing guard exits the process with the ledger file untouched. -/
def hookSessionEnd (cfg : Option Config) (input : String) (data : HookSessionEndData)
    (disk : SessionState) : SessionState :=
  if hookGuard cfg input then
    saveSessionState (sessionEndStateToSave data.session_id (loadSessionState disk))
  else disk

/-! ## Concrete values used by witnesses and counterexamples -/

/-- A `getTime` in which every timestamp parse is `NaN`. -/
def noTime : String → Option Int := fun _ => none

/-- A configuration with `autoSync` unset (so auto-sync is enabled). -/
def cfgW : Config :=
  { convexUrl := "https://x.convex.site", apiKey := "osk_x", autoSync := none,
    syncToolCalls := none, syncThinking := none }

def dataEndW : HookSessionEndData :=
  { session_id := "s1", transcript_path := none, cwd := none, reason := some "other" }

def wStopData : HookStopData :=
  { session_id := "s", transcript_path := some "/tmp/t.jsonl" }

/-- An assistant message body with one text part and no usage. -/
def wMsgBody : TranscriptMessage :=
  { content := some [{ type := "text", text := some "hi" }],
    usage := none,
    model := some "m" }

/-- A transcript entry: one assistant message with uuid `b`. -/
def wEntryB : TranscriptEntry :=
  { type := some "assistant",
    uuid := some "b",
    timestamp := some "2026-01-01T00:00:00Z",
    message := some wMsgBody,
    cwd := none,
    slug := none }

/-- An on-disk ledger whose session `s` has already synced uuid `a`. -/
def wDisk : SessionState :=
  [("s", { emptyEntry with syncedMessageUuids := some (.arr ["a"]) })]

def dupUsage : TranscriptUsage :=
  { input_tokens := some 1, output_tokens := some 2,
    cache_read_input_tokens := some 3, cache_creation_input_tokens := some 4 }

/-- An assistant entry with uuid `a` and a usage block; scanning it twice
exercises the duplicate-uuid path. -/
def dupEntry : TranscriptEntry :=
  { type := some "assistant",
    uuid := some "a",
    timestamp := none,
    message := some { content := none, usage := some dupUsage, model := some "m" },
    cwd := none,
    slug := none }

/-! ## Basic lemmas about the JS collection helpers and the ledger -/

lemma mem_insertUuid (s : List String) (u v : String) :
    v ∈ insertUuid s u ↔ v ∈ s ∨ v = u := by
  unfold insertUuid
  split
  · constructor
    · exact fun h => Or.inl h
    · rintro (h | rfl)
      · exact h
      · assumption
  · simp [or_comm]

lemma mem_foldl_insertUuid (l : List String) :
    ∀ acc u, u ∈ l.foldl insertUuid acc ↔ u ∈ acc ∨ u ∈ l := by
  induction l with
  | nil => simp
  | cons x xs ih =>
    intro acc u
    simp only [List.foldl_cons, ih, mem_insertUuid, List.mem_cons]
    tauto

lemma mem_jsDedup (l : List String) (u : String) : u ∈ jsDedup l ↔ u ∈ l := by
  unfold jsDedup
  simp [mem_foldl_insertUuid]

lemma lookupSession_map (f : SessionEntry → SessionEntry) (st : SessionState) (sid : String) :
    lookupSession (st.map fun p => (p.1, f p.2)) sid = (lookupSession st sid).map f := by
  induction st with
  | nil => rfl
  | cons p rest ih =>
    simp only [List.map_cons, lookupSession]
    split <;> simp [ih]

lemma lookupSession_save (st : SessionState) (sid : String) :
    lookupSession (saveSessionState st) sid = (lookupSession st sid).map saveEntry :=
  lookupSession_map saveEntry st sid

lemma lookupSession_load (st : SessionState) (sid : String) :
    lookupSession (loadSessionState st) sid = (lookupSession st sid).map loadEntry :=
  lookupSession_map loadEntry st sid

lemma lookupSession_set_self (st : SessionState) (sid : String) (e : SessionEntry) :
    lookupSession (setSession st sid e) sid = some e := by
  induction st with
  | nil => simp [setSession, lookupSession]
  | cons p rest ih =>
    rcases p with ⟨k, v⟩
    simp only [setSession]
    by_cases hk : k = sid
    · simp [lookupSession, hk]
    · simp [lookupSession, hk, ih]

lemma lookupSession_erase_self (st : SessionState) (sid : String) :
    lookupSession (eraseSession st sid) sid = none := by
  induction st with
  | nil => rfl
  | cons p rest ih =>
    rcases p with ⟨k, v⟩
    simp only [eraseSession]
    by_cases hk : k = sid
    · simpa [hk]
    · simp [lookupSession, hk, ih]

lemma lookupSession_erase_ne (st : SessionState) (sid sid' : String) (h : sid' ≠ sid) :
    lookupSession (eraseSession st sid) sid' = lookupSession st sid' := by
  induction st with
  | nil => rfl
  | cons p rest ih =>
    rcases p with ⟨k, v⟩
    simp only [eraseSession]
    by_cases hk : k = sid
    · subst hk
      rw [if_pos rfl, ih]
      have hne : ¬ k = sid' := fun hc => h hc.symm
      simp [lookupSession, hne]
    · rw [if_neg hk]
      simp only [lookupSession]
      split <;> simp [ih]

lemma syncedSetOfEntry_loadEntry (e : SessionEntry) :
    syncedSetOfEntry (loadEntry e) = syncedSetOfEntry e := by
  unfold syncedSetOfEntry loadEntry
  rcases e with ⟨_, _, _, _, _, _, _, s, _, _, _, _, _, _⟩
  rcases s with _ | s
  · rfl
  · rcases s <;> rfl

lemma mem_syncedSetOfEntry_saveEntry (e : SessionEntry) (u : String) :
    u ∈ syncedSetOfEntry (saveEntry e) ↔ u ∈ syncedSetOfEntry e := by
  unfold syncedSetOfEntry saveEntry
  rcases e with ⟨_, _, _, _, _, _, _, s, _, _, _, _, _, _⟩
  rcases s with _ | s
  · rfl
  · rcases s with l | l
    · simp [mem_jsDedup]
    · rfl

lemma syncedUuidsOf_load (st : SessionState) (sid : String) :
    syncedUuidsOf (loadSessionState st) sid = syncedUuidsOf st sid := by
  unfold syncedUuidsOf
  rw [lookupSession_load]
  cases lookupSession st sid with
  | none => rfl
  | some e => exact syncedSetOfEntry_loadEntry e

lemma scanLines_removeMalformed (now : String) (ls : List TranscriptLine) :
    ∀ st, scanLines now st (removeMalformed ls) = scanLines now st ls := by
  induction ls with
  | nil => intro st; rfl
  | cons l rest ih =>
    intro st
    cases l with
    | blank => exact ih st
    | malformed => exact ih st
    | entry e => exact ih (scanEntry now st e)

lemma lookupPrice_eq_none (L : List (String × Pricing)) (m : String)
    (h : ∀ kv ∈ L, kv.1 ≠ m) : lookupPrice L m = none := by
  induction L with
  | nil => rfl
  | cons kv rest ih =>
    rcases kv with ⟨k, p⟩
    simp only [lookupPrice]
    rw [if_neg (h (k, p) (by simp))]
    exact ih fun x hx => h x (by simp [hx])

/-! ## Lemmas about the transcript scanner -/

lemma preEntry_seenUuids (e : TranscriptEntry) (st : ScanState) :
    (preEntry e st).seenUuids = st.seenUuids := rfl

lemma preEntry_messages (e : TranscriptEntry) (st : ScanState) :
    (preEntry e st).messages = st.messages := rfl

lemma preEntry_inputTokens (e : TranscriptEntry) (st : ScanState) :
    (preEntry e st).stats.inputTokens = st.stats.inputTokens := rfl

lemma preEntry_cacheCreationTokens (e : TranscriptEntry) (st : ScanState) :
    (preEntry e st).stats.cacheCreationTokens = st.stats.cacheCreationTokens := rfl

lemma preEntry_cacheReadTokens (e : TranscriptEntry) (st : ScanState) :
    (preEntry e st).stats.cacheReadTokens = st.stats.cacheReadTokens := rfl

lemma preEntry_outputTokens (e : TranscriptEntry) (st : ScanState) :
    (preEntry e st).stats.outputTokens = st.stats.outputTokens := rfl

lemma addToolCalls_inputTokens (s : TranscriptStats) (n : Nat) :
    (addToolCalls s n).inputTokens = s.inputTokens := rfl

lemma addToolCalls_cacheCreationTokens (s : TranscriptStats) (n : Nat) :
    (addToolCalls s n).cacheCreationTokens = s.cacheCreationTokens := rfl

lemma addToolCalls_cacheReadTokens (s : TranscriptStats) (n : Nat) :
    (addToolCalls s n).cacheReadTokens = s.cacheReadTokens := rfl

lemma addToolCalls_outputTokens (s : TranscriptStats) (n : Nat) :
    (addToolCalls s n).outputTokens = s.outputTokens := rfl

lemma addUsage_inputTokens (s : TranscriptStats) (msg : TranscriptMessage) :
    (addUsage s msg).inputTokens = s.inputTokens + msgTokIn msg := by
  cases hu : msg.usage <;> simp [addUsage, msgTokIn, hu]

lemma addUsage_cacheCreationTokens (s : TranscriptStats) (msg : TranscriptMessage) :
    (addUsage s msg).cacheCreationTokens = s.cacheCreationTokens + msgTokCacheW msg := by
  cases hu : msg.usage <;> simp [addUsage, msgTokCacheW, hu]

lemma addUsage_cacheReadTokens (s : TranscriptStats) (msg : TranscriptMessage) :
    (addUsage s msg).cacheReadTokens = s.cacheReadTokens + msgTokCacheR msg := by
  cases hu : msg.usage <;> simp [addUsage, msgTokCacheR, hu]

lemma addUsage_outputTokens (s : TranscriptStats) (msg : TranscriptMessage) :
    (addUsage s msg).outputTokens = s.outputTokens + msgTokOut msg := by
  cases hu : msg.usage <;> simp [addUsage, msgTokOut, hu]

lemma assistantEntries_cons_entry_none (e : TranscriptEntry) (rest : List TranscriptLine)
    (hm : e.message = none) :
    assistantEntries (.entry e :: rest) = assistantEntries rest := by
  simp [assistantEntries, List.filterMap_cons, hm]

lemma assistantEntries_cons_not_assistant (e : TranscriptEntry) (rest : List TranscriptLine)
    (msg : TranscriptMessage) (hm : e.message = some msg)
    (ht : ¬ e.type = some "assistant") :
    assistantEntries (.entry e :: rest) = assistantEntries rest := by
  simp [assistantEntries, List.filterMap_cons, hm, ht]

lemma assistantEntries_cons_assistant (e : TranscriptEntry) (rest : List TranscriptLine)
    (msg : TranscriptMessage) (hm : e.message = some msg)
    (ht : e.type = some "assistant") :
    assistantEntries (.entry e :: rest) = e :: assistantEntries rest := by
  simp [assistantEntries, List.filterMap_cons, hm, ht]

/-- Main scan invariant: over any suffix of the transcript and any loop
state, the four token counters grow by exactly the usage sums taken over the
first-occurrence assistant entries (with respect to the uuids already seen),
and the extracted messages grow by the text parts of those same entries. -/
lemma scanLines_firstOcc (now : String) (ls : List TranscriptLine) :
    ∀ st : ScanState,
      (scanLines now st ls).stats.inputTokens
          = st.stats.inputTokens
            + ((keepFirstByUuid st.seenUuids (assistantEntries ls)).map tokIn).sum
      ∧ (scanLines now st ls).stats.cacheCreationTokens
          = st.stats.cacheCreationTokens
            + ((keepFirstByUuid st.seenUuids (assistantEntries ls)).map tokCacheW).sum
      ∧ (scanLines now st ls).stats.cacheReadTokens
          = st.stats.cacheReadTokens
            + ((keepFirstByUuid st.seenUuids (assistantEntries ls)).map tokCacheR).sum
      ∧ (scanLines now st ls).stats.outputTokens
          = st.stats.outputTokens
            + ((keepFirstByUuid st.seenUuids (assistantEntries ls)).map tokOut).sum
      ∧ (scanLines now st ls).messages
          = st.messages
            ++ (keepFirstByUuid st.seenUuids (assistantEntries ls)).flatMap
                (extractTexts now) := by
  induction ls with
  | nil =>
    intro st
    simp [scanLines, assistantEntries, keepFirstByUuid]
  | cons l rest ih =>
    intro st
    cases l with
    | blank => exact ih st
    | malformed => exact ih st
    | entry e =>
      have hstep : scanLines now st (.entry e :: rest)
          = scanLines now (scanEntry now st e) rest := rfl
      cases hm : e.message with
      | none =>
        have hscan : scanEntry now st e = preEntry e st := by
          simp only [scanEntry, hm]
        rw [hstep, hscan, assistantEntries_cons_entry_none e rest hm]
        exact ih (preEntry e st)
      | some msg =>
        by_cases ht : e.type = some "assistant"
        · by_cases hdup : e.uuid.getD "" ≠ "" ∧ e.uuid.getD "" ∈ st.seenUuids
          · have hscan : scanEntry now st e = preEntry e st := by
              simp only [scanEntry, hm, preEntry_seenUuids]
              rw [if_pos ht, if_pos hdup]
            rw [hstep, hscan, assistantEntries_cons_assistant e rest msg hm ht]
            have hkeep : keepFirstByUuid st.seenUuids (e :: assistantEntries rest)
                = keepFirstByUuid st.seenUuids (assistantEntries rest) := by
              rw [keepFirstByUuid, if_pos hdup]
            rw [hkeep]
            exact ih (preEntry e st)
          · have hscan : scanEntry now st e =
                { preEntry e st with
                  seenUuids := if e.uuid.getD "" = "" then st.seenUuids
                    else insertUuid st.seenUuids (e.uuid.getD ""),
                  messages := (preEntry e st).messages ++ extractTexts now e,
                  stats := addUsage (addToolCalls (preEntry e st).stats (countToolUses e))
                    msg } := by
              simp only [scanEntry, hm, preEntry_seenUuids]
              rw [if_pos ht, if_neg hdup]
            rw [hstep, hscan, assistantEntries_cons_assistant e rest msg hm ht]
            have hkeep : keepFirstByUuid st.seenUuids (e :: assistantEntries rest)
                = e :: keepFirstByUuid
                    (if e.uuid.getD "" = "" then st.seenUuids
                     else insertUuid st.seenUuids (e.uuid.getD ""))
                    (assistantEntries rest) := by
              rw [keepFirstByUuid, if_neg hdup]
            rw [hkeep]
            obtain ⟨i1, i2, i3, i4, i5⟩ := ih
              { preEntry e st with
                seenUuids := if e.uuid.getD "" = "" then st.seenUuids
                  else insertUuid st.seenUuids (e.uuid.getD ""),
                messages := (preEntry e st).messages ++ extractTexts now e,
                stats := addUsage (addToolCalls (preEntry e st).stats (countToolUses e))
                  msg }
            refine ⟨?_, ?_, ?_, ?_, ?_⟩
            · rw [i1]
              simp only [preEntry_seenUuids, addUsage_inputTokens,
                addToolCalls_inputTokens, preEntry_inputTokens, List.map_cons,
                List.sum_cons, tokIn, hm]
              omega
            · rw [i2]
              simp only [preEntry_seenUuids, addUsage_cacheCreationTokens,
                addToolCalls_cacheCreationTokens, preEntry_cacheCreationTokens,
                List.map_cons, List.sum_cons, tokCacheW, hm]
              omega
            · rw [i3]
              simp only [preEntry_seenUuids, addUsage_cacheReadTokens,
                addToolCalls_cacheReadTokens, preEntry_cacheReadTokens, List.map_cons,
                List.sum_cons, tokCacheR, hm]
              omega
            · rw [i4]
              simp only [preEntry_seenUuids, addUsage_outputTokens,
                addToolCalls_outputTokens, preEntry_outputTokens, List.map_cons,
                List.sum_cons, tokOut, hm]
              omega
            · rw [i5]
              simp only [preEntry_seenUuids, preEntry_messages, List.flatMap_cons,
                List.append_assoc]
        · have hscan : scanEntry now st e = preEntry e st := by
            simp only [scanEntry, hm]
            rw [if_neg ht]
          rw [hstep, hscan, assistantEntries_cons_not_assistant e rest msg hm ht]
          exact ih (preEntry e st)

lemma finalizeScan_proj (getTime : String → Option Int) (st : ScanState) :
    (finalizeScan getTime st).stats.inputTokens = st.stats.inputTokens ∧
    (finalizeScan getTime st).stats.cacheCreationTokens = st.stats.cacheCreationTokens ∧
    (finalizeScan getTime st).stats.cacheReadTokens = st.stats.cacheReadTokens ∧
    (finalizeScan getTime st).stats.outputTokens = st.stats.outputTokens ∧
    (finalizeScan getTime st).assistantMessages = st.messages := by
  unfold finalizeScan
  rcases st with ⟨msgs, stats, seen, ft, lt⟩
  rcases ft with _ | f <;> rcases lt with _ | l <;> try exact ⟨rfl, rfl, rfl, rfl, rfl⟩
  dsimp only
  split <;> exact ⟨rfl, rfl, rfl, rfl, rfl⟩

/-! ## Lemmas about the Stop handler's message-forwarding loop -/

lemma emitLoop_mem_mono (msgs : List AssistantMessage) :
    ∀ synced mc u, u ∈ synced → u ∈ (emitLoop synced mc msgs).fst := by
  induction msgs with
  | nil => intro synced mc u hu; simpa [emitLoop]
  | cons a rest ih =>
    intro synced mc u hu
    by_cases h : a.uuid ≠ "" ∧ a.uuid ∈ synced
    · rw [emitLoop, if_pos h]
      exact ih _ _ _ hu
    · rw [emitLoop, if_neg h]
      show u ∈ (emitLoop (if a.uuid = "" then synced else insertUuid synced a.uuid)
        (some (mc.getD 0 + 1)) rest).fst
      apply ih
      by_cases ha : a.uuid = "" <;> simp [ha, mem_insertUuid, hu]

lemma emitLoop_emitted_mem_fst (msgs : List AssistantMessage) :
    ∀ synced mc m, m ∈ (emitLoop synced mc msgs).snd.snd → m.uuid ≠ "" →
      m.uuid ∈ (emitLoop synced mc msgs).fst := by
  induction msgs with
  | nil => intro synced mc m hm hne; simp [emitLoop] at hm
  | cons a rest ih =>
    intro synced mc m hm hne
    by_cases h : a.uuid ≠ "" ∧ a.uuid ∈ synced
    · rw [emitLoop, if_pos h] at hm ⊢
      exact ih _ _ _ hm hne
    · rw [emitLoop, if_neg h] at hm ⊢
      rcases List.mem_cons.mp hm with rfl | hm'
      · show m.uuid ∈ (emitLoop (if m.uuid = "" then synced else insertUuid synced m.uuid)
          (some (mc.getD 0 + 1)) rest).fst
        apply emitLoop_mem_mono
        simp [hne, mem_insertUuid]
      · exact ih _ _ _ hm' hne

lemma emitLoop_input_mem_fst (msgs : List AssistantMessage) :
    ∀ synced mc m, m ∈ msgs → m.uuid ≠ "" → m.uuid ∈ (emitLoop synced mc msgs).fst := by
  induction msgs with
  | nil => intro synced mc m hm; cases hm
  | cons a rest ih =>
    intro synced mc m hm hne
    by_cases h : a.uuid ≠ "" ∧ a.uuid ∈ synced
    · rw [emitLoop, if_pos h]
      rcases List.mem_cons.mp hm with rfl | hm'
      · exact emitLoop_mem_mono rest synced mc m.uuid h.2
      · exact ih _ _ _ hm' hne
    · rw [emitLoop, if_neg h]
      show m.uuid ∈ (emitLoop (if a.uuid = "" then synced else insertUuid synced a.uuid)
        (some (mc.getD 0 + 1)) rest).fst
      rcases List.mem_cons.mp hm with rfl | hm'
      · apply emitLoop_mem_mono
        simp [hne, mem_insertUuid]
      · exact ih _ _ _ hm' hne

lemma emitLoop_no_retransmit (msgs : List AssistantMessage) :
    ∀ synced mc u, u ≠ "" → u ∈ synced →
      ∀ m ∈ (emitLoop synced mc msgs).snd.snd, m.uuid ≠ u := by
  induction msgs with
  | nil => intro synced mc u hu hmem m hm; simp [emitLoop] at hm
  | cons a rest ih =>
    intro synced mc u hu hmem m hm
    by_cases h : a.uuid ≠ "" ∧ a.uuid ∈ synced
    · rw [emitLoop, if_pos h] at hm
      exact ih _ _ _ hu hmem m hm
    · rw [emitLoop, if_neg h] at hm
      rcases List.mem_cons.mp hm with rfl | hm'
      · intro hc
        exact h ⟨hc ▸ hu, hc ▸ hmem⟩
      · refine ih _ _ _ hu ?_ m hm'
        by_cases ha : a.uuid = "" <;> simp [ha, mem_insertUuid, hmem]

lemma emitLoop_fst_fixed (msgs : List AssistantMessage) :
    ∀ synced mc, (∀ m ∈ msgs, m.uuid ≠ "" → m.uuid ∈ synced) →
      (emitLoop synced mc msgs).fst = synced := by
  induction msgs with
  | nil => intro synced mc _; rfl
  | cons a rest ih =>
    intro synced mc h
    by_cases ha : a.uuid = ""
    · have hcond : ¬ (a.uuid ≠ "" ∧ a.uuid ∈ synced) := fun hc => hc.1 ha
      rw [emitLoop, if_neg hcond]
      show (emitLoop (if a.uuid = "" then synced else insertUuid synced a.uuid)
        (some (mc.getD 0 + 1)) rest).fst = synced
      rw [if_pos ha]
      exact ih _ _ fun m hm => h m (List.mem_cons_of_mem a hm)
    · have hmem : a.uuid ∈ synced := h a (List.mem_cons_self a rest) ha
      rw [emitLoop, if_pos ⟨ha, hmem⟩]
      exact ih _ _ fun m hm => h m (List.mem_cons_of_mem a hm)

/-! ## Characterization of one `hook Stop` invocation -/

lemma stopInvocation_fst (data : HookStopData) (file : Option (List TranscriptLine))
    (getTime : String → Option Int) (now : String) (disk : SessionState) :
    (stopInvocation data file getTime now disk).fst
      = saveSessionState (handleStop data file getTime now (loadSessionState disk)).fst := rfl

lemma stopInvocation_snd (data : HookStopData) (file : Option (List TranscriptLine))
    (getTime : String → Option Int) (now : String) (disk : SessionState) :
    (stopInvocation data file getTime now disk).snd
      = (handleStop data file getTime now (loadSessionState disk)).snd := rfl

lemma syncedSetOfEntry_stopUpdateStats (s : TranscriptStats) (e : SessionEntry) :
    syncedSetOfEntry (stopUpdateStats s e) = syncedSetOfEntry e := rfl

lemma handleStop_snd (data : HookStopData) (file : Option (List TranscriptLine))
    (getTime : String → Option Int) (now : String) (st : SessionState) :
    (handleStop data file getTime now st).snd
      = (if strTruthy data.transcript_path then
          (emitLoop (syncedUuidsOf st data.session_id)
            ((lookupSession st data.session_id).getD emptyEntry).messageCount
            (parseTranscriptFile getTime now file).assistantMessages).snd.snd
         else []) := by
  by_cases hp : strTruthy data.transcript_path = true
  · simp only [handleStop, hp, if_true]
    rfl
  · rw [Bool.not_eq_true] at hp
    simp only [handleStop, hp, Bool.false_eq_true, if_false]

lemma handleStop_saved_synced_mem (data : HookStopData) (file : Option (List TranscriptLine))
    (getTime : String → Option Int) (now : String) (st : SessionState) (u : String) :
    (u ∈ syncedUuidsOf (saveSessionState (handleStop data file getTime now st).fst)
        data.session_id)
      ↔ (if strTruthy data.transcript_path then
          u ∈ (emitLoop (syncedUuidsOf st data.session_id)
            ((lookupSession st data.session_id).getD emptyEntry).messageCount
            (parseTranscriptFile getTime now file).assistantMessages).fst
         else u ∈ syncedUuidsOf st data.session_id) := by
  by_cases hp : strTruthy data.transcript_path = true
  · simp only [handleStop, hp, if_true]
    unfold syncedUuidsOf
    rw [lookupSession_save, lookupSession_set_self]
    simp only [Option.map_some', Option.getD_some]
    rw [mem_syncedSetOfEntry_saveEntry]
    rfl
  · rw [Bool.not_eq_true] at hp
    simp only [handleStop, hp, Bool.false_eq_true, if_false]
    unfold syncedUuidsOf
    rw [lookupSession_save, lookupSession_set_self]
    simp only [Option.map_some', Option.getD_some]
    rw [mem_syncedSetOfEntry_saveEntry]

/-! ## Claim theorems -/

/-- Claim C4: the scanner's aggregate statistics are unchanged when malformed
(non-JSON-parsable) lines interspersed in the transcript are removed first,
for every transcript, every timestamp parser and every clock value. -/
theorem scanner_malformed_transparent (getTime : String → Option Int) (now : String)
    (ls : List TranscriptLine) :
    (parseTranscriptLines getTime now ls).stats
      = (parseTranscriptLines getTime now (removeMalformed ls)).stats := by
  unfold parseTranscriptLines
  rw [scanLines_removeMalformed]

/-- Claim C9: on a missing transcript file the scanner returns the default
result — zero token totals and counts, no model, title, working directory or
timestamps, and no assistant messages — without failing. -/
theorem parse_missing_file_default (getTime : String → Option Int) (now : String) :
    parseTranscriptFile getTime now none =
      { assistantMessages := [],
        stats := { model := none, inputTokens := 0, cacheCreationTokens := 0,
                   cacheReadTokens := 0, outputTokens := 0, messageCount := 0,
                   toolCallCount := 0, title := none, cwd := none, startedAt := none,
                   endedAt := none, durationMs := none } } := rfl

/-- Claim C8: for model `claude-3-5-haiku-20241022` with 100 input tokens,
50 output tokens and no cache tokens, `calculateCost` returns exactly
(100 × 0.80 + 50 × 4.00) / 1,000,000 = 0.00028 dollars. -/
theorem haiku_cost_example :
    calculateCost (some "claude-3-5-haiku-20241022")
      { initStats with inputTokens := 100, outputTokens := 50 } = 0.00028 := by
  have hfp : findPricing "claude-3-5-haiku-20241022" = some ⟨0.80, 4, 1.00, 0.08⟩ := rfl
  norm_num [calculateCost, hfp, initStats]
  decide

/-- Claim C5, counterexample: `claude-3-5-haiku-20241022x` is not a key of the
price table, yet `calculateCost` returns a nonzero cost for it (the substring
fallback finds the haiku pricing), refuting "for every model name that is not
a key of the static price table the cost estimator returns exactly zero". -/
theorem cost_nonkey_nonzero :
    ("claude-3-5-haiku-20241022x" ∉ MODEL_PRICING.map Prod.fst) ∧
    calculateCost (some "claude-3-5-haiku-20241022x")
      { initStats with inputTokens := 1000000 } ≠ 0 := by
  have hfp : findPricing "claude-3-5-haiku-20241022x" = some ⟨0.80, 4, 1.00, 0.08⟩ := rfl
  refine ⟨by decide, ?_⟩
  norm_num [calculateCost, hfp, initStats]
  decide

/-- Claim C5, amended: for every model name for which both the exact-key
lookup and the bidirectional substring lookup against the price table fail,
`calculateCost` returns exactly zero for all token counts; it also returns
zero when the model is undefined. -/
theorem cost_unmatched_zero (m : String) (stats : TranscriptStats)
    (h : ∀ kv ∈ MODEL_PRICING,
      kv.1 ≠ m ∧ strIncludes m kv.1 = false ∧ strIncludes kv.1 m = false) :
    calculateCost (some m) stats = 0 ∧ calculateCost none stats = 0 := by
  refine ⟨?_, rfl⟩
  have hex : lookupPrice MODEL_PRICING m = none :=
    lookupPrice_eq_none _ _ fun kv hkv => (h kv hkv).1
  have hfind : MODEL_PRICING.find? (fun kv => strIncludes m kv.1 || strIncludes kv.1 m)
      = none := by
    rw [List.find?_eq_none]
    intro kv hkv
    rcases h kv hkv with ⟨-, h2, h3⟩
    simp [h2, h3]
  have hfp : findPricing m = none := by
    unfold findPricing
    rw [hex, hfind]
  simp [calculateCost, hfp]

theorem cost_unmatched_zero_witness :
    (∀ kv ∈ MODEL_PRICING,
      kv.1 ≠ "gpt-4o" ∧ strIncludes "gpt-4o" kv.1 = false ∧
        strIncludes kv.1 "gpt-4o" = false) ∧
    (calculateCost (some "gpt-4o") initStats = 0 ∧ calculateCost none initStats = 0) :=
  ⟨by decide, cost_unmatched_zero "gpt-4o" initStats (by decide)⟩

/-- Claim C6: saving a ledger (sets serialized to arrays) and reloading it
(arrays deserialized back to sets) yields, for every session id, a
synced-message-identifier set with exactly the original membership. -/
theorem ledger_roundtrip (st : SessionState) (sid : String) (u : String) :
    u ∈ syncedUuidsOf (loadSessionState (saveSessionState st)) sid
      ↔ u ∈ syncedUuidsOf st sid := by
  unfold syncedUuidsOf
  rw [lookupSession_load, lookupSession_save]
  cases h : lookupSession st sid with
  | none => simp
  | some e =>
    simp only [Option.map_some', Option.getD_some]
    rw [syncedSetOfEntry_loadEntry]
    exact mem_syncedSetOfEntry_saveEntry e u

/-- Claim C3: a `SessionEnd` hook invocation that passes the guards (loaded
configuration, auto-sync not disabled, non-blank stdin) leaves the persisted
ledger with no entry for the event's session id, for every prior on-disk
ledger — in particular also when no entry for that id existed. -/
theorem session_end_removes_entry (cfg : Option Config) (input : String)
    (data : HookSessionEndData) (disk : SessionState)
    (hg : hookGuard cfg input = true) :
    lookupSession (hookSessionEnd cfg input data disk) data.session_id = none := by
  unfold hookSessionEnd sessionEndStateToSave
  rw [if_pos hg, lookupSession_save, lookupSession_erase_self]
  rfl

theorem session_end_removes_entry_witness :
    hookGuard (some cfgW) "x" = true ∧
    lookupSession
      (hookSessionEnd (some cfgW) "x" dataEndW [("s1", emptyEntry)])
      dataEndW.session_id = none :=
  ⟨by decide, session_end_removes_entry (some cfgW) "x" dataEndW [("s1", emptyEntry)]
    (by decide)⟩

/-- Claim C10: handling a `SessionEnd` event touches at most the ledger entry
of the event's session: for every other session id, the entry in the state
passed to the final save equals the entry in the loaded state. -/
theorem session_end_frame (sid : String) (loaded : SessionState) (sid' : String)
    (h : sid' ≠ sid) :
    lookupSession (sessionEndStateToSave sid loaded) sid' = lookupSession loaded sid' := by
  unfold sessionEndStateToSave
  exact lookupSession_erase_ne loaded sid sid' h

theorem session_end_frame_witness :
    ("b" : String) ≠ "a" ∧
    lookupSession (sessionEndStateToSave "a" [("b", emptyEntry)]) "b"
      = lookupSession [("b", emptyEntry)] "b" :=
  ⟨by decide, session_end_frame "a" [("b", emptyEntry)] "b" (by decide)⟩

lemma stopInvocation_synced_mem (data : HookStopData) (file : Option (List TranscriptLine))
    (getTime : String → Option Int) (now : String) (disk : SessionState) (u : String) :
    (u ∈ syncedUuidsOf (stopInvocation data file getTime now disk).fst data.session_id)
      ↔ (if strTruthy data.transcript_path then
          u ∈ (emitLoop (syncedUuidsOf disk data.session_id)
            ((lookupSession (loadSessionState disk) data.session_id).getD
              emptyEntry).messageCount
            (parseTranscriptFile getTime now file).assistantMessages).fst
         else u ∈ syncedUuidsOf disk data.session_id) := by
  rw [stopInvocation_fst, handleStop_saved_synced_mem]
  by_cases hp : strTruthy data.transcript_path = true
  · rw [if_pos hp, if_pos hp, syncedUuidsOf_load]
  · rw [if_neg hp, if_neg hp, syncedUuidsOf_load]

/-- Claim C1: once a message identifier is recorded in a session's synced set
in the on-disk ledger, a `Stop` invocation never transmits a transcript
message with that identifier again, and every nonempty identifier it does
transmit is in the synced set it persists.  (The handler only ever records
nonempty identifiers, whence the `u ≠ ""` hypothesis.) -/
theorem stop_no_retransmit (data : HookStopData) (file : Option (List TranscriptLine))
    (getTime : String → Option Int) (now : String) (disk : SessionState) (u : String)
    (hu : u ≠ "") (hmem : u ∈ syncedUuidsOf disk data.session_id) :
    (∀ m ∈ (stopInvocation data file getTime now disk).snd, m.uuid ≠ u) ∧
    (∀ m ∈ (stopInvocation data file getTime now disk).snd, m.uuid ≠ "" →
      m.uuid ∈ syncedUuidsOf (stopInvocation data file getTime now disk).fst
        data.session_id) := by
  constructor
  · intro m hm
    rw [stopInvocation_snd, handleStop_snd] at hm
    by_cases hp : strTruthy data.transcript_path = true
    · rw [if_pos hp, syncedUuidsOf_load] at hm
      exact emitLoop_no_retransmit _ _ _ _ hu hmem m hm
    · rw [if_neg hp] at hm
      exact absurd hm (List.not_mem_nil m)
  · intro m hm hne
    have h := stopInvocation_synced_mem data file getTime now disk m.uuid
    rw [stopInvocation_snd, handleStop_snd] at hm
    by_cases hp : strTruthy data.transcript_path = true
    · rw [if_pos hp, syncedUuidsOf_load] at hm
      rw [if_pos hp] at h
      exact h.2 (emitLoop_emitted_mem_fst _ _ _ _ hm hne)
    · rw [if_neg hp] at hm
      exact absurd hm (List.not_mem_nil m)

theorem stop_no_retransmit_witness :
    (("a" : String) ≠ "" ∧ "a" ∈ syncedUuidsOf wDisk "s") ∧
    ((∀ m ∈ (stopInvocation wStopData (some [.entry wEntryB]) noTime "now" wDisk).snd,
        m.uuid ≠ "a") ∧
     (∀ m ∈ (stopInvocation wStopData (some [.entry wEntryB]) noTime "now" wDisk).snd,
        m.uuid ≠ "" →
        m.uuid ∈ syncedUuidsOf
          (stopInvocation wStopData (some [.entry wEntryB]) noTime "now" wDisk).fst
          wStopData.session_id)) :=
  ⟨⟨by decide, by decide⟩,
   stop_no_retransmit wStopData (some [.entry wEntryB]) noTime "now" wDisk "a"
     (by decide) (by decide)⟩

/-- Claim C7: running the `Stop` handler a second time over an unchanged
transcript does not change the persisted synced-identifier set: the set
persisted by the second invocation has exactly the membership of the set
persisted by the first. -/
theorem stop_rescan_no_growth (data : HookStopData) (file : Option (List TranscriptLine))
    (getTime : String → Option Int) (now : String) (disk : SessionState) (u : String) :
    (u ∈ syncedUuidsOf
        (stopInvocation data file getTime now
          (stopInvocation data file getTime now disk).fst).fst data.session_id)
      ↔ u ∈ syncedUuidsOf (stopInvocation data file getTime now disk).fst
          data.session_id := by
  by_cases hp : strTruthy data.transcript_path = true
  · have h2 := stopInvocation_synced_mem data file getTime now
      (stopInvocation data file getTime now disk).fst u
    rw [if_pos hp] at h2
    have h1 : ∀ v : String,
        v ∈ syncedUuidsOf (stopInvocation data file getTime now disk).fst data.session_id
          ↔ v ∈ (emitLoop (syncedUuidsOf disk data.session_id)
              ((lookupSession (loadSessionState disk) data.session_id).getD
                emptyEntry).messageCount
              (parseTranscriptFile getTime now file).assistantMessages).fst := by
      intro v
      have h := stopInvocation_synced_mem data file getTime now disk v
      rwa [if_pos hp] at h
    have hmsgs : ∀ m ∈ (parseTranscriptFile getTime now file).assistantMessages,
        m.uuid ≠ "" →
        m.uuid ∈ syncedUuidsOf (stopInvocation data file getTime now disk).fst
          data.session_id :=
      fun m hm hne => (h1 _).2 (emitLoop_input_mem_fst _ _ _ m hm hne)
    have hfix := emitLoop_fst_fixed (parseTranscriptFile getTime now file).assistantMessages
      (syncedUuidsOf (stopInvocation data file getTime now disk).fst data.session_id)
      ((lookupSession (loadSessionState (stopInvocation data file getTime now disk).fst)
        data.session_id).getD emptyEntry).messageCount hmsgs
    rw [hfix] at h2
    exact h2
  · have h2 := stopInvocation_synced_mem data file getTime now
      (stopInvocation data file getTime now disk).fst u
    rw [if_neg hp] at h2
    exact h2

/-- Claim C2, counterexample: on a transcript holding the same assistant
entry (uuid `a`, 1 input token) twice, the scanner's input-token total is 1,
not the sum 2 over all well-formed assistant entries — the duplicate-uuid
`continue` in `parseTranscriptFile` runs before the usage accumulation, so a
duplicate entry contributes no tokens. -/
theorem scanner_dup_tokens_cex :
    (parseTranscriptLines noTime "" [.entry dupEntry, .entry dupEntry]).stats.inputTokens
      ≠ ((assistantEntries [.entry dupEntry, .entry dupEntry]).map tokIn).sum := by
  decide

/-- Claim C2, amended: the scanner's input / cache-write / cache-read /
output token totals equal the sums of the corresponding usage fields over
the first-occurrence well-formed assistant entries only (an entry whose
nonempty identifier already appeared on an earlier well-formed assistant
entry contributes neither tokens nor extracted messages; entries with an
empty identifier always count), and the extracted assistant messages are
exactly the text parts of those same first-occurrence entries. -/
theorem scanner_token_accumulation (getTime : String → Option Int) (now : String)
    (ls : List TranscriptLine) :
    (parseTranscriptLines getTime now ls).stats.inputTokens
        = ((keepFirstByUuid [] (assistantEntries ls)).map tokIn).sum
      ∧ (parseTranscriptLines getTime now ls).stats.cacheCreationTokens
        = ((keepFirstByUuid [] (assistantEntries ls)).map tokCacheW).sum
      ∧ (parseTranscriptLines getTime now ls).stats.cacheReadTokens
        = ((keepFirstByUuid [] (assistantEntries ls)).map tokCacheR).sum
      ∧ (parseTranscriptLines getTime now ls).stats.outputTokens
        = ((keepFirstByUuid [] (assistantEntries ls)).map tokOut).sum
      ∧ (parseTranscriptLines getTime now ls).assistantMessages
        = (keepFirstByUuid [] (assistantEntries ls)).flatMap (extractTexts now) := by
  obtain ⟨i1, i2, i3, i4, i5⟩ := scanLines_firstOcc now ls initScanState
  obtain ⟨f1, f2, f3, f4, f5⟩ := finalizeScan_proj getTime (scanLines now initScanState ls)
  unfold parseTranscriptLines
  refine ⟨?_, ?_, ?_, ?_, ?_⟩
  · rw [f1, i1]; simp [initScanState, initStats]
  · rw [f2, i2]; simp [initScanState, initStats]
  · rw [f3, i3]; simp [initScanState, initStats]
  · rw [f4, i4]; simp [initScanState, initStats]
  · rw [f5, i5]; simp [initScanState, initStats]

end ClaudeCodeSync
